import Mathlib

/-!
Verification development for the mindmap-bot Mind-Map Document Generation
Engine.  The Python sources under `app/services/mindmap/` are shallowly
embedded below: the tree model (`models.py`), the generation facade
(`mindmap_service.py`), the generic JSON serializer (`json_generator.py`),
the FreeMind XML serializer (`freemind_generator.py`), the spreadsheet
serializer (`excel_generator.py`) and the radial layout / canvas sizing code
(`image_generator.py`).  Python dict/list/str values are embedded as the
`PyVal` type, raised exceptions as `Except PyError`, and Python float
arithmetic in the layout engine as exact real arithmetic.
-/

set_option maxHeartbeats 1000000

namespace MindmapBot

/-- Embedding of the Python/JSON values the generators manipulate:
strings, ints, `None`, dicts (insertion-ordered association lists) and
lists. -/
inductive PyVal : Type where
  | str (s : String)
  | int (n : Int)
  | none
  | dict (entries : List (String × PyVal))
  | list (items : List PyVal)

/-- Embedding of the Python exceptions that can be raised by the embedded
code paths. -/
inductive PyError : Type where
  | attributeError (msg : String)
  | typeError (msg : String)
  | validationError (msg : String)
  deriving DecidableEq

/-- `MindMapTheme` from `models.py`: an ordered palette, a background color
and a text color. -/
structure MindMapTheme : Type where
  colors : List String
  background : String
  text : String
  deriving DecidableEq

/-- `MindMapNode` from `models.py`: id, name, optional note, color map,
font map, ordered children.  (`id` is produced by `uuid.uuid4()` at
construction time; its concrete value is irrelevant to every property
proved below, so freshly built nodes use `""`.) -/
inductive MindMapNode : Type where
  | mk (id : String) (name : String) (note : Option String)
      (colors : List (String × String))
      (font : List (String × PyVal))
      (children : List MindMapNode)

def MindMapNode.id : MindMapNode → String
  | .mk i _ _ _ _ _ => i

def MindMapNode.name : MindMapNode → String
  | .mk _ n _ _ _ _ => n

def MindMapNode.note : MindMapNode → Option String
  | .mk _ _ nt _ _ _ => nt

def MindMapNode.colors : MindMapNode → List (String × String)
  | .mk _ _ _ cs _ _ => cs

def MindMapNode.font : MindMapNode → List (String × PyVal)
  | .mk _ _ _ _ f _ => f

def MindMapNode.children : MindMapNode → List MindMapNode
  | .mk _ _ _ _ _ ch => ch

/-- Default `colors` map of a `MindMapNode` (`models.py` lines 21-25). -/
def defaultColors : List (String × String) :=
  [("name", "#000000"), ("background", "#ffffff"), ("branch", "#1f77b4")]

/-- Default `font` map of a `MindMapNode` (`models.py` lines 26-30). -/
def defaultFont : List (String × PyVal) :=
  [("size", PyVal.int 14), ("style", PyVal.str "normal"),
    ("weight", PyVal.str "normal")]

/-- Strong induction principle for `MindMapNode` (children are a nested
`List`, so the auto-generated recursor is awkward to use directly). -/
theorem MindMapNode.ind (P : MindMapNode → Prop)
    (h : ∀ i n nt colors font children,
      (∀ c ∈ children, P c) → P (.mk i n nt colors font children)) :
    ∀ t, P t
  | .mk i n nt colors font children =>
    h i n nt colors font children
      (fun c hc => MindMapNode.ind P h c)
termination_by t => sizeOf t
decreasing_by
  cases hc with
  | head => simp; omega
  | tail _ hmem =>
    have := List.sizeOf_lt_of_mem hmem
    simp
    omega

/-- `MindMapNode.to_dict` from `models.py`: the recursive node dump used by
the generic JSON serializer. -/
def MindMapNode.toDict : MindMapNode → PyVal
  | .mk i n nt colors font children =>
    PyVal.dict
      [("id", PyVal.str i),
        ("name", PyVal.str n),
        ("note", match nt with
          | Option.none => PyVal.none
          | some s => PyVal.str s),
        ("colors", PyVal.dict (colors.map (fun p => (p.1, PyVal.str p.2)))),
        ("font", PyVal.dict font),
        ("children", PyVal.list (children.attach.map
          (fun c => MindMapNode.toDict c.1)))]
termination_by t => sizeOf t
decreasing_by
  have := List.sizeOf_lt_of_mem c.2
  simp
  omega

theorem MindMapNode.toDict_def (i n : String) (nt : Option String)
    (colors : List (String × String)) (font : List (String × PyVal))
    (children : List MindMapNode) :
    MindMapNode.toDict (.mk i n nt colors font children) =
      PyVal.dict
        [("id", PyVal.str i),
          ("name", PyVal.str n),
          ("note", match nt with
            | Option.none => PyVal.none
            | some s => PyVal.str s),
          ("colors", PyVal.dict (colors.map (fun p => (p.1, PyVal.str p.2)))),
          ("font", PyVal.dict font),
          ("children", PyVal.list (children.map MindMapNode.toDict))] := by
  rw [MindMapNode.toDict.eq_def]
  simp [List.attach_map_coe]

theorem sizeOf_lookup_lt {k : String} :
    ∀ {entries : List (String × PyVal)} {w : PyVal},
      entries.lookup k = some w → sizeOf w < sizeOf entries := by
  intro entries
  induction entries with
  | nil => intro w h; simp [List.lookup] at h
  | cons p rest ih =>
    intro w h
    rw [List.lookup] at h
    split at h
    · cases h
      cases p
      simp
      omega
    · have := ih h
      simp
      omega

/-- Pydantic validation of the `name` field of `MindMapNode` (`name: str`,
required).  Non-string values are rejected; the roundtrip and facade claims
only ever feed it strings. -/
def pyName : PyVal → Except PyError String
  | PyVal.str s => Except.ok s
  | _ => Except.error (PyError.validationError "name must be a string")

/-- Pydantic validation of the `note` field of `MindMapNode`
(`note: Optional[str]`). -/
def pyNote : PyVal → Except PyError (Option String)
  | PyVal.none => Except.ok Option.none
  | PyVal.str s => Except.ok (some s)
  | _ => Except.error (PyError.validationError "note must be a string or null")

mutual

/-- `MindMapService._build_simple_node_tree` from `mindmap_service.py`:
recursive descent over the structure dict, `name` defaulting to `""`,
`note` defaulting to `None`, `children` defaulting to `[]`, children
appended in input order via `add_child`. -/
def buildSimpleNodeTree (v : PyVal) : Except PyError MindMapNode :=
  match v with
  | PyVal.dict entries =>
    match pyName ((entries.lookup "name").getD (PyVal.str "")) with
    | Except.error e => Except.error e
    | Except.ok nm =>
      match pyNote ((entries.lookup "note").getD PyVal.none) with
      | Except.error e => Except.error e
      | Except.ok nt =>
        match hch : entries.lookup "children" with
        | Option.none =>
          Except.ok (MindMapNode.mk "" nm nt defaultColors defaultFont [])
        | some (PyVal.list items) =>
          match buildChildrenList items with
          | Except.error e => Except.error e
          | Except.ok cs =>
            Except.ok (MindMapNode.mk "" nm nt defaultColors defaultFont cs)
        | some _ =>
          Except.error (PyError.typeError "children is not iterable")
  | _ =>
    Except.error
      (PyError.attributeError "structure object has no attribute get")
termination_by sizeOf v
decreasing_by
  have h1 := sizeOf_lookup_lt hch
  simp at h1 ⊢
  omega

/-- The `for child_data in children_data` loop of
`_build_simple_node_tree`: build each child in order, propagating the first
validation error. -/
def buildChildrenList : List PyVal → Except PyError (List MindMapNode)
  | [] => Except.ok []
  | x :: rest =>
    match buildSimpleNodeTree x with
    | Except.error e => Except.error e
    | Except.ok node =>
      match buildChildrenList rest with
      | Except.error e => Except.error e
      | Except.ok ns => Except.ok (node :: ns)
termination_by l => sizeOf l
decreasing_by
  all_goals simp <;> omega

end

/-- `JSONMindMapGenerator.generate` from `json_generator.py`.  `now` stands
for the `get_vietnam_time().isoformat()` timestamp.  The produced byte
buffer is modelled by the Python value that is serialized into it.  When
`theme` is `None`, the attribute accesses `theme.colors` /
`theme.background` / `theme.text` raise `AttributeError`. -/
def jsonGenerate (now : String) (root : MindMapNode) (title : String)
    (theme : Option MindMapTheme) : Except PyError PyVal :=
  match theme with
  | Option.none =>
    Except.error
      (PyError.attributeError "'NoneType' object has no attribute 'colors'")
  | some th =>
    Except.ok (PyVal.dict
      [("meta", PyVal.dict
          [("name", PyVal.str title),
            ("author", PyVal.str "Mindmap Bot"),
            ("created", PyVal.str now),
            ("version", PyVal.str "1.0")]),
        ("theme", PyVal.dict
          [("name", PyVal.str "custom"),
            ("colorScheme", PyVal.list (th.colors.map PyVal.str)),
            ("background", PyVal.str th.background),
            ("text", PyVal.str th.text)]),
        ("root", root.toDict)])

mutual

/-- Modelled from the spec: body lines of the plain-text outline serializer
(`MarkdownGenerator`, whose source file
`app/services/mindmap/generators/markdown_generator.py` is not present
under `src/`).  Per spec section 4.4, each node becomes an indented bullet
and a node's note is emitted as a sub-line beneath its bullet. -/
def markdownNodeLines (n : MindMapNode) (depth : Nat) : String :=
  match n with
  | .mk _ name nt _ _ children =>
    String.join (List.replicate depth "  ") ++ "- " ++ name ++ "\n" ++
      (match nt with
        | some s => String.join (List.replicate (depth + 1) "  ") ++ s ++ "\n"
        | Option.none => "") ++
      markdownForest children (depth + 1)
termination_by sizeOf n
decreasing_by
  simp <;> omega

/-- Modelled from the spec: sequential rendering of a list of sibling
nodes by the plain-text outline serializer. -/
def markdownForest : List MindMapNode → Nat → String
  | [], _ => ""
  | c :: rest, d => markdownNodeLines c d ++ markdownForest rest d
termination_by l => sizeOf l
decreasing_by
  all_goals simp <;> omega

end

/-- Modelled from the spec: `MarkdownGenerator.generate` (file not present
under `src/`).  Per spec section 4.4 the title becomes a top-level heading
and the tree is rendered as nested bullets; the theme argument is accepted
for interface consistency and unused. -/
def markdownGenerate (root : MindMapNode) (title : String)
    (theme : Option MindMapTheme) : Except PyError PyVal :=
  Except.ok (PyVal.str ("# " ++ title ++ "\n\n" ++ markdownNodeLines root 0))

/-- `MindMapService.generate_from_structure` from `mindmap_service.py`:
build the simplified node tree, then dispatch on `format` — the
`"markdown"` branch invokes the markdown generator, and the `else` branch
(commented `# json` in the source) invokes the JSON generator.  Both are
passed `None` for the theme. -/
def generateFromStructure (now : String) (struct : PyVal) (title : String)
    (format : String) : Except PyError PyVal :=
  match buildSimpleNodeTree struct with
  | Except.error e => Except.error e
  | Except.ok rootNode =>
    if format = "markdown" then
      markdownGenerate rootNode title Option.none
    else
      jsonGenerate now rootNode title Option.none

/-- Dict field access (`d["root"]` / `d.get(k)`) on an embedded Python
value. -/
def pyGet? (v : PyVal) (k : String) : Option PyVal :=
  match v with
  | PyVal.dict entries => entries.lookup k
  | _ => Option.none

/-- The outline content of a tree: its names, notes and child ordering,
with ids and styling erased.  The generic-JSON roundtrip claim is stated
in terms of this projection. -/
inductive OutlineTree : Type where
  | mk (name : String) (note : Option String) (children : List OutlineTree)

def MindMapNode.outline : MindMapNode → OutlineTree
  | .mk _ n nt _ _ cs =>
    OutlineTree.mk n nt (cs.attach.map (fun c => MindMapNode.outline c.1))
termination_by t => sizeOf t
decreasing_by
  have := List.sizeOf_lt_of_mem c.2
  simp
  omega

theorem MindMapNode.outline_def (i n : String) (nt : Option String)
    (colors : List (String × String)) (font : List (String × PyVal))
    (cs : List MindMapNode) :
    MindMapNode.outline (.mk i n nt colors font cs) =
      OutlineTree.mk n nt (cs.map MindMapNode.outline) := by
  rw [MindMapNode.outline.eq_def]
  simp [List.attach_map_coe]

theorem buildSimpleNodeTree_toDict (i n : String) (nt : Option String)
    (colors : List (String × String)) (font : List (String × PyVal))
    (cs : List MindMapNode) :
    buildSimpleNodeTree (MindMapNode.toDict (.mk i n nt colors font cs)) =
      match buildChildrenList (cs.map MindMapNode.toDict) with
      | Except.error e => Except.error e
      | Except.ok ms =>
        Except.ok (MindMapNode.mk "" n nt defaultColors defaultFont ms) := by
  rw [MindMapNode.toDict_def, buildSimpleNodeTree]
  cases nt <;> simp [List.lookup, pyName, pyNote]

theorem buildChildrenList_roundtrip (cs : List MindMapNode)
    (ih : ∀ c ∈ cs, ∃ m, buildSimpleNodeTree (MindMapNode.toDict c) =
      Except.ok m ∧ MindMapNode.outline m = MindMapNode.outline c) :
    ∃ ms, buildChildrenList (cs.map MindMapNode.toDict) = Except.ok ms ∧
      ms.map MindMapNode.outline = cs.map MindMapNode.outline := by
  induction cs with
  | nil => exact ⟨[], by rw [List.map_nil, buildChildrenList], rfl⟩
  | cons c rest ihr =>
    obtain ⟨m, hm, hout⟩ := ih c (List.mem_cons_self c rest)
    obtain ⟨ms, hms, houts⟩ :=
      ihr (fun x hx => ih x (List.mem_cons_of_mem c hx))
    refine ⟨m :: ms, ?_, ?_⟩
    · rw [List.map_cons, buildChildrenList, hm, hms]
    · simp [hout, houts]

theorem buildSimpleNodeTree_roundtrip (t : MindMapNode) :
    ∃ m, buildSimpleNodeTree (MindMapNode.toDict t) = Except.ok m ∧
      MindMapNode.outline m = MindMapNode.outline t := by
  induction t using MindMapNode.ind with
  | h i n nt colors font children ih =>
    obtain ⟨ms, hms, houts⟩ := buildChildrenList_roundtrip children ih
    refine ⟨MindMapNode.mk "" n nt defaultColors defaultFont ms, ?_, ?_⟩
    · rw [buildSimpleNodeTree_toDict, hms]
    · rw [MindMapNode.outline_def, MindMapNode.outline_def, houts]

/-- C3: for every tree, serializing it with the generic-JSON serializer
(with any theme, so that serialization completes) and reconstructing a tree
from the `root` field of the output via the facade's tree builder yields a
tree with exactly the original names, notes and child ordering. -/
theorem json_roundtrip_preserves_outline (now title : String)
    (th : MindMapTheme) (t : MindMapNode) :
    ∃ out rootVal m,
      jsonGenerate now t title (some th) = Except.ok out ∧
      pyGet? out "root" = some rootVal ∧
      buildSimpleNodeTree rootVal = Except.ok m ∧
      MindMapNode.outline m = MindMapNode.outline t := by
  obtain ⟨m, hm, hout⟩ := buildSimpleNodeTree_roundtrip t
  exact ⟨_, MindMapNode.toDict t, m, rfl, by simp [pyGet?, List.lookup],
    hm, hout⟩

/-- C1: the generic-JSON serializer does not tolerate an absent theme — for
every tree, calling it with `theme = None` raises `AttributeError` on
`theme.colors` instead of completing, and consequently the facade's JSON
path (which always passes `None`) raises for every structure it can build a
tree from. -/
theorem json_generate_none_theme_raises :
    (∀ now t title, jsonGenerate now t title Option.none =
      Except.error (PyError.attributeError
        "'NoneType' object has no attribute 'colors'")) ∧
    (∀ now struct title m, buildSimpleNodeTree struct = Except.ok m →
      generateFromStructure now struct title "json" =
        Except.error (PyError.attributeError
          "'NoneType' object has no attribute 'colors'")) := by
  constructor
  · intro now t title
    rfl
  · intro now struct title m hm
    rw [generateFromStructure, hm]
    simp [jsonGenerate]

/-- Witness for C1: the facade's JSON path raises on the concrete structure
`{"name": "Topic"}` even though the tree builds fine. -/
theorem json_generate_none_theme_raises_witness :
    buildSimpleNodeTree (PyVal.dict [("name", PyVal.str "Topic")]) =
      Except.ok (MindMapNode.mk "" "Topic" Option.none defaultColors
        defaultFont []) ∧
    generateFromStructure "" (PyVal.dict [("name", PyVal.str "Topic")])
        "Topic" "json" =
      Except.error (PyError.attributeError
        "'NoneType' object has no attribute 'colors'") := by
  have hb : buildSimpleNodeTree (PyVal.dict [("name", PyVal.str "Topic")]) =
      Except.ok (MindMapNode.mk "" "Topic" Option.none defaultColors
        defaultFont []) := by
    rw [buildSimpleNodeTree]
    simp [List.lookup, pyName, pyNote]
  exact ⟨hb, json_generate_none_theme_raises.2 "" _ "Topic" _ hb⟩

/-- C2 counterexample: on the unsupported format `"opml"` (with structure
`{"name": "Topic"}`) the facade does not reject the format — it silently
invokes the generic-JSON serializer, behaving exactly as it does for
`format = "json"`. -/
theorem facade_unknown_format_counterexample :
    generateFromStructure "" (PyVal.dict [("name", PyVal.str "Topic")])
        "T" "opml" =
      jsonGenerate "" (MindMapNode.mk "" "Topic" Option.none defaultColors
        defaultFont []) "T" Option.none ∧
    generateFromStructure "" (PyVal.dict [("name", PyVal.str "Topic")])
        "T" "opml" =
      generateFromStructure "" (PyVal.dict [("name", PyVal.str "Topic")])
        "T" "json" := by
  have hb : buildSimpleNodeTree (PyVal.dict [("name", PyVal.str "Topic")]) =
      Except.ok (MindMapNode.mk "" "Topic" Option.none defaultColors
        defaultFont []) := by
    rw [buildSimpleNodeTree]
    simp [List.lookup, pyName, pyNote]
  rw [generateFromStructure, generateFromStructure, hb]
  simp

/-- C2 (amended): every requested format other than `"markdown"` is routed
to the `else` branch of the facade and therefore behaves exactly like
`"json"`; the facade never rejects a format. -/
theorem facade_unknown_format_is_json (now : String) (struct : PyVal)
    (title fmt : String) (hfmt : fmt ≠ "markdown") :
    generateFromStructure now struct title fmt =
      generateFromStructure now struct title "json" := by
  rw [generateFromStructure, generateFromStructure]
  cases buildSimpleNodeTree struct with
  | error e => rfl
  | ok m => simp [hfmt]

/-- Witness for the amended C2 at the concrete format `"opml"`. -/
theorem facade_unknown_format_is_json_witness :
    generateFromStructure "" (PyVal.dict []) "T" "opml" =
      generateFromStructure "" (PyVal.dict []) "T" "json" :=
  facade_unknown_format_is_json "" (PyVal.dict []) "T" "opml" (by decide)

/-- `ExcelGenerator.LEVEL_COLORS` from `excel_generator.py`: the fixed
level-indexed fill palette. -/
def LEVEL_COLORS : List (Nat × String) :=
  [(0, "4472C4"), (1, "70AD47"), (2, "FFC000"), (3, "5B9BD5"),
    (4, "A5A5A5")]

/-- `self.LEVEL_COLORS.get(level, "FFFFFF")` from
`ExcelGenerator._build_excel_tree`. -/
def levelColor (level : Nat) : String :=
  (LEVEL_COLORS.lookup level).getD "FFFFFF"

/-- One data row of the `Mind Map` worksheet: the `Level`, `Node Name`,
`Note` and `Path` cells, plus the fill color applied to the `Level`
cell. -/
structure ExcelRow : Type where
  level : Nat
  fill : String
  nameCell : String
  noteCell : String
  pathCell : String
  deriving DecidableEq

mutual

/-- `ExcelGenerator._build_excel_tree` from `excel_generator.py`: emit the
current node's row (level, fill from `levelColor`, name indented two
spaces per level, note or empty string, breadcrumb path), then recurse
into the children in order. -/
def buildExcelTree (node : MindMapNode) (level : Nat) (path : String) :
    List ExcelRow :=
  match node with
  | .mk _ name nt _ _ children =>
    { level := level,
      fill := levelColor level,
      nameCell := String.join (List.replicate level "  ") ++ name,
      noteCell := match nt with
        | some s => s
        | Option.none => "",
      pathCell := path } :: buildExcelForest children (level + 1) path
termination_by sizeOf node
decreasing_by
  simp <;> omega

/-- The `for child in node.children` loop of `_build_excel_tree`: each
child is emitted with `child_path = f"{path} > {child.name}"`. -/
def buildExcelForest : List MindMapNode → Nat → String → List ExcelRow
  | [], _, _ => []
  | c :: rest, lvl, parentPath =>
    buildExcelTree c lvl (parentPath ++ " > " ++ c.name) ++
      buildExcelForest rest lvl parentPath
termination_by l => sizeOf l
decreasing_by
  all_goals simp <;> omega

end

theorem buildExcelTree_def (i name : String) (nt : Option String)
    (colors : List (String × String)) (font : List (String × PyVal))
    (children : List MindMapNode) (level : Nat) (path : String) :
    buildExcelTree (.mk i name nt colors font children) level path =
      { level := level,
        fill := levelColor level,
        nameCell := String.join (List.replicate level "  ") ++ name,
        noteCell := match nt with
          | some s => s
          | Option.none => "",
        pathCell := path } :: buildExcelForest children (level + 1) path := by
  rw [buildExcelTree.eq_def]

/-- Breadcrumb join: segments joined by `" > "` (the claim's description
of the `Path` column). -/
def joinSegs : List String → String
  | [] => ""
  | h :: t => t.foldl (fun acc s => acc ++ " > " ++ s) h

theorem joinSegs_append (l : List String) (x : String) (hl : l ≠ []) :
    joinSegs (l ++ [x]) = joinSegs l ++ " > " ++ x := by
  match l with
  | h :: t => simp [joinSegs, List.foldl_append]

mutual

/-- Spec-side description of the data sheet: a pre-order depth-first
traversal emitting, for the node at depth `d` with ancestor names `anc`,
the pair `(d, joinSegs (anc ++ [name]))`. -/
def specRows (n : MindMapNode) (d : Nat) (anc : List String) :
    List (Nat × String) :=
  match n with
  | .mk _ name _ _ _ children =>
    (d, joinSegs (anc ++ [name])) ::
      specForest children (d + 1) (anc ++ [name])
termination_by sizeOf n
decreasing_by
  simp <;> omega

/-- Spec-side pre-order traversal of a sibling list. -/
def specForest : List MindMapNode → Nat → List String → List (Nat × String)
  | [], _, _ => []
  | c :: rest, d, anc => specRows c d anc ++ specForest rest d anc
termination_by l => sizeOf l
decreasing_by
  all_goals simp <;> omega

end

theorem buildExcelTree_path_level :
    ∀ (n : MindMapNode) (d : Nat) (anc : List String),
      (buildExcelTree n d (joinSegs (anc ++ [n.name]))).map
          (fun r => (r.level, r.pathCell)) =
        specRows n d anc := by
  intro n
  induction n using MindMapNode.ind with
  | h i nm nt colors font children ih =>
    intro d anc
    rw [buildExcelTree_def, specRows]
    simp only [MindMapNode.name, List.map_cons]
    congr 1
    have aux : ∀ (cs : List MindMapNode), (∀ c ∈ cs, ∀ d anc,
          (buildExcelTree c d (joinSegs (anc ++ [c.name]))).map
            (fun r => (r.level, r.pathCell)) = specRows c d anc) →
          ∀ (d : Nat) (anc2 : List String), anc2 ≠ [] →
          (buildExcelForest cs d (joinSegs anc2)).map
              (fun r => (r.level, r.pathCell)) =
            specForest cs d anc2 := by
        intro cs
        induction cs with
        | nil => intro _ d anc2 _; rw [buildExcelForest, specForest]; rfl
        | cons c rest ihr =>
          intro hcs d anc2 hanc2
          rw [buildExcelForest, specForest]
          rw [List.map_append]
          rw [← joinSegs_append anc2 c.name hanc2]
          rw [hcs c (List.mem_cons_self c rest) d anc2]
          rw [ihr (fun x hx => hcs x (List.mem_cons_of_mem c hx)) d anc2
            hanc2]
    exact aux children ih (d + 1) (anc ++ [nm]) (by simp)

theorem specRows_segments :
    ∀ (n : MindMapNode) (d : Nat) (anc : List String), anc.length = d →
      ∀ p ∈ specRows n d anc, ∃ segs : List String,
        p.2 = joinSegs segs ∧ segs.length = p.1 + 1 := by
  intro n
  induction n using MindMapNode.ind with
  | h i nm nt colors font children ih =>
    intro d anc hanc p hp
    rw [specRows] at hp
    rcases List.mem_cons.mp hp with h0 | hrest
    · subst h0
      exact ⟨anc ++ [nm], rfl, by simp [hanc]⟩
    · have aux : ∀ (cs : List MindMapNode), (∀ c ∈ cs, ∀ d anc,
          anc.length = d → ∀ p ∈ specRows c d anc, ∃ segs : List String,
            p.2 = joinSegs segs ∧ segs.length = p.1 + 1) →
          ∀ (d : Nat) (anc2 : List String), anc2.length = d →
          ∀ p ∈ specForest cs d anc2, ∃ segs : List String,
            p.2 = joinSegs segs ∧ segs.length = p.1 + 1 := by
        intro cs
        induction cs with
        | nil => intro _ d anc2 _ p hp; rw [specForest] at hp; simp at hp
        | cons c rest ihr =>
          intro hcs d anc2 hanc2 p hp
          rw [specForest] at hp
          rcases List.mem_append.mp hp with hl | hr
          · exact hcs c (List.mem_cons_self c rest) d anc2 hanc2 p hl
          · exact ihr (fun x hx => hcs x (List.mem_cons_of_mem c hx)) d
              anc2 hanc2 p hr
      exact aux children ih (d + 1) (anc ++ [nm]) (by simp [hanc]) p hrest

/-- C8: the data rows emitted by the spreadsheet serializer (started, as in
`ExcelGenerator.generate`, at level 0 with path `root.name`) are exactly
the pre-order depth-first traversal in which the node at depth `d` gets
`Level = d` and `Path = ` its ancestor names plus its own joined by
`" > "`; consequently every row's `Path` consists of exactly `Level + 1`
name segments. -/
theorem excel_rows_spec (root : MindMapNode) :
    ((buildExcelTree root 0 root.name).map
        (fun r => (r.level, r.pathCell)) = specRows root 0 []) ∧
    (∀ r ∈ buildExcelTree root 0 root.name, ∃ segs : List String,
      r.pathCell = joinSegs segs ∧ segs.length = r.level + 1) := by
  have hname : root.name = joinSegs ([] ++ [root.name]) := by
    simp [joinSegs]
  constructor
  · rw [hname]
    exact buildExcelTree_path_level root 0 []
  · intro r hr
    have hmem : (r.level, r.pathCell) ∈
        (buildExcelTree root 0 root.name).map
          (fun r => (r.level, r.pathCell)) :=
      List.mem_map_of_mem _ hr
    rw [hname] at hmem
    rw [buildExcelTree_path_level root 0 []] at hmem
    exact specRows_segments root 0 [] rfl _ hmem

/-- A chain tree of the given depth: each node has one child, so the chain
of depth `k` produces spreadsheet rows at levels `0..k`. -/
def chainTree : Nat → MindMapNode
  | 0 => MindMapNode.mk "" "n" Option.none defaultColors defaultFont []
  | k + 1 => MindMapNode.mk "" "n" Option.none defaultColors defaultFont
      [chainTree k]

/-- Witness for C8 at a concrete two-node tree: the depth-1 row's path is
the 2-segment breadcrumb. -/
theorem excel_rows_spec_witness :
    ∃ segs : List String,
      ({ level := 1, fill := "70AD47", nameCell := "  n",
         noteCell := "", pathCell := "n > n" } : ExcelRow).pathCell =
        joinSegs segs ∧
      segs.length = ({ level := 1, fill := "70AD47", nameCell := "  n",
                       noteCell := "", pathCell := "n > n" } :
                      ExcelRow).level + 1 :=
  (excel_rows_spec (chainTree 1)).2 _ (by
    simp only [chainTree, MindMapNode.name, buildExcelTree_def,
      buildExcelForest]
    simp [levelColor, LEVEL_COLORS, List.lookup, String.join])

/-- C9 counterexample: on the depth-5 chain, the row at level 5 gets fill
color `"FFFFFF"` (the `.get` default), not the palette entry at key
`min(5, 4)`, which is `"A5A5A5"`. -/
theorem excel_level_color_counterexample :
    (buildExcelTree (chainTree 5) 0 "n").map (fun r => (r.level, r.fill)) =
      [(0, "4472C4"), (1, "70AD47"), (2, "FFC000"), (3, "5B9BD5"),
        (4, "A5A5A5"), (5, "FFFFFF")] ∧
    (LEVEL_COLORS.lookup (min 5 4)).getD "FFFFFF" = "A5A5A5" ∧
    ("FFFFFF" : String) ≠ "A5A5A5" := by
  refine ⟨?_, by simp [LEVEL_COLORS, List.lookup], by simp⟩
  simp only [chainTree, MindMapNode.name, buildExcelTree_def,
    buildExcelForest]
  simp [levelColor, LEVEL_COLORS, List.lookup]

/-- C9 (amended): every data row's `Level`-cell fill is
`LEVEL_COLORS.get(level, "FFFFFF")` — the palette entry at key `level`
for levels 0..4, and the *default white* `"FFFFFF"` (not the last palette
entry) for every deeper level. -/
theorem excel_level_color_amended :
    (∀ (root : MindMapNode) (lvl : Nat) (path : String),
      ∀ r ∈ buildExcelTree root lvl path,
        r.fill = (LEVEL_COLORS.lookup r.level).getD "FFFFFF") ∧
    (∀ l : Nat, 4 < l → (LEVEL_COLORS.lookup l).getD "FFFFFF" = "FFFFFF") := by
  constructor
  · intro root
    induction root using MindMapNode.ind with
    | h i nm nt colors font children ih =>
      intro lvl path r hr
      rw [buildExcelTree_def] at hr
      rcases List.mem_cons.mp hr with h0 | hrest
      · subst h0; rfl
      · have aux : ∀ (cs : List MindMapNode), (∀ c ∈ cs, ∀ lvl path,
            ∀ r ∈ buildExcelTree c lvl path,
              r.fill = (LEVEL_COLORS.lookup r.level).getD "FFFFFF") →
            ∀ (lvl : Nat) (path : String),
            ∀ r ∈ buildExcelForest cs lvl path,
              r.fill = (LEVEL_COLORS.lookup r.level).getD "FFFFFF" := by
          intro cs
          induction cs with
          | nil => intro _ lvl path r hr; rw [buildExcelForest] at hr
                   simp at hr
          | cons c rest ihr =>
            intro hcs lvl path r hr
            rw [buildExcelForest] at hr
            rcases List.mem_append.mp hr with hl | hrr
            · exact hcs c (List.mem_cons_self c rest) lvl _ r hl
            · exact ihr (fun x hx => hcs x (List.mem_cons_of_mem c hx))
                lvl path r hrr
        exact aux children ih (lvl + 1) path r hrest
  · intro l hl
    have h0 : (l == 0) = false := by simp; omega
    have h1 : (l == 1) = false := by simp; omega
    have h2 : (l == 2) = false := by simp; omega
    have h3 : (l == 3) = false := by simp; omega
    have h4 : (l == 4) = false := by simp; omega
    simp [LEVEL_COLORS, List.lookup, h0, h1, h2, h3, h4]

/-- Witness for the amended C9: a concrete level-0 row uses the palette
entry at key 0, and level 7 falls back to white. -/
theorem excel_level_color_amended_witness :
    ({ level := 0, fill := "4472C4", nameCell := "n",
       noteCell := "", pathCell := "n" } : ExcelRow).fill =
      (LEVEL_COLORS.lookup ({ level := 0, fill := "4472C4", nameCell := "n",
                              noteCell := "", pathCell := "n" } :
                             ExcelRow).level).getD "FFFFFF" ∧
    (LEVEL_COLORS.lookup 7).getD "FFFFFF" = "FFFFFF" :=
  ⟨excel_level_color_amended.1 (chainTree 0) 0 "n" _ (by
      simp only [chainTree, buildExcelTree_def, buildExcelForest]
      simp [levelColor, LEVEL_COLORS, List.lookup, String.join]),
    excel_level_color_amended.2 7 (by omega)⟩

/-- The characters accepted as hexadecimal digits by Python's
`int(s, 16)`. -/
def isHexDigit (c : Char) : Bool :=
  decide ((48 ≤ c.toNat ∧ c.toNat ≤ 57) ∨ (97 ≤ c.toNat ∧ c.toNat ≤ 102) ∨
    (65 ≤ c.toNat ∧ c.toNat ≤ 70))

/-- Numeric value of a hexadecimal digit (0 for non-digits; only applied
to hex digits). -/
def hexDigitVal (c : Char) : Int :=
  if 48 ≤ c.toNat ∧ c.toNat ≤ 57 then (c.toNat : Int) - 48
  else if 97 ≤ c.toNat ∧ c.toNat ≤ 102 then (c.toNat : Int) - 87
  else if 65 ≤ c.toNat ∧ c.toNat ≤ 70 then (c.toNat : Int) - 55
  else 0

/-- Value of a string of hexadecimal digits, most significant first. -/
def hexVal (l : List Char) : Int :=
  l.foldl (fun a c => 16 * a + hexDigitVal c) 0

/-- Embedding of Python's `int(s, 16)` on the (at most two-character)
slices taken by `_parse_color`: surrounding whitespace is stripped, an
optional single sign is accepted, and the remainder must be one or more
hex digits.  (Python also accepts underscores between digits, which needs
at least three characters and therefore cannot occur in these slices.) -/
def pyIntHex (s : List Char) : Option Int :=
  let t := ((s.dropWhile Char.isWhitespace).reverse.dropWhile
    Char.isWhitespace).reverse
  match t with
  | [] => Option.none
  | d :: ds =>
    if d = '+' then
      if ds ≠ [] ∧ ds.all isHexDigit then some (hexVal ds) else Option.none
    else if d = '-' then
      if ds ≠ [] ∧ ds.all isHexDigit then some (-(hexVal ds))
      else Option.none
    else
      if (d :: ds).all isHexDigit then some (hexVal (d :: ds))
      else Option.none

/-- Python slice `l[i:j]` (for `0 ≤ i ≤ j`). -/
def pySlice (l : List Char) (i j : Nat) : List Char := (l.take j).drop i

/-- The normalization step of `ImageMindMapGenerator._parse_color`:
`lstrip('#')`, then 3-digit shorthand is expanded by doubling each
character and an 8-digit value keeps only its first 6 characters. -/
def normalizeHex (s : String) : List Char :=
  let h0 := s.toList.dropWhile (fun c => c = '#')
  if h0.length = 3 then h0.bind (fun c => [c, c])
  else if h0.length = 8 then h0.take 6
  else h0

/-- `ImageMindMapGenerator._parse_color` from `image_generator.py`: empty
input yields white; otherwise the normalized hex string is parsed two
characters per channel, any `ValueError`/`IndexError` being caught and
mapped to white. -/
def parseColor (s : String) : Int × Int × Int :=
  if s = "" then (255, 255, 255)
  else
    match pyIntHex (pySlice (normalizeHex s) 0 2),
        pyIntHex (pySlice (normalizeHex s) 2 4),
        pyIntHex (pySlice (normalizeHex s) 4 6) with
    | some r, some g, some b => (r, g, b)
    | _, _, _ => (255, 255, 255)

theorem isHexDigit_toNat {c : Char} (h : isHexDigit c = true) :
    48 ≤ c.toNat ∧ c.toNat ≤ 102 := by
  have := of_decide_eq_true h
  omega

theorem isHexDigit_ne {c : Char} (h : isHexDigit c = true) {d : Char}
    (hd : d.toNat < 48) : c ≠ d := by
  intro he
  subst he
  have := isHexDigit_toNat h
  omega

theorem isHexDigit_not_ws {c : Char} (h : isHexDigit c = true) :
    c.isWhitespace = false := by
  have h48 := (isHexDigit_toNat h).1
  rw [Char.isWhitespace]
  have h1 : c ≠ ' ' := isHexDigit_ne h (by decide)
  have h2 : c ≠ '\t' := isHexDigit_ne h (by decide)
  have h3 : c ≠ '\r' := isHexDigit_ne h (by decide)
  have h4 : c ≠ '\n' := isHexDigit_ne h (by decide)
  simp [h1, h2, h3, h4]

theorem pyIntHex_all_digits (l : List Char) (hne : l ≠ [])
    (hall : ∀ c ∈ l, isHexDigit c = true) :
    pyIntHex l = some (hexVal l) := by
  match l with
  | d :: ds =>
    have hd := hall d (List.mem_cons_self d ds)
    have hstrip1 : (d :: ds).dropWhile Char.isWhitespace = d :: ds := by
      rw [List.dropWhile_cons, isHexDigit_not_ws hd]
      simp
    have hstrip2 : (d :: ds).reverse.dropWhile Char.isWhitespace =
        (d :: ds).reverse := by
      match hrev : (d :: ds).reverse with
      | [] => simp at hrev
      | e :: es =>
        have he : e ∈ d :: ds := by
          rw [← List.mem_reverse, hrev]
          exact List.mem_cons_self e es
        rw [List.dropWhile_cons, isHexDigit_not_ws (hall e he)]
        simp
    rw [pyIntHex]
    simp only [hstrip1, hstrip2, List.reverse_reverse]
    have hplus : d ≠ '+' := isHexDigit_ne hd (by decide)
    have hminus : d ≠ '-' := isHexDigit_ne hd (by decide)
    rw [if_neg hplus, if_neg hminus, if_pos]
    rw [List.all_eq_true]
    exact hall

theorem hexVal_pair (c : Char) : hexVal [c, c] = 17 * hexDigitVal c := by
  simp [hexVal]
  ring

/-- C10: behavior of the renderer's hex color parser — it always returns a
triple (never raises); a `#`-prefixed 3-digit shorthand is expanded by
doubling each digit (value `17 * digit` per channel); an 8-digit hex color
is parsed as its first 6 digits (alpha suffix dropped); and whenever one of
the two-character channel slices fails to parse as hex, the result is
white `(255, 255, 255)` (as it is for the empty string). -/
theorem parse_color_spec :
    (∀ s : String, ∃ r g b : Int, parseColor s = (r, g, b)) ∧
    (∀ c1 c2 c3 : Char, isHexDigit c1 = true → isHexDigit c2 = true →
      isHexDigit c3 = true →
      parseColor (String.mk ['#', c1, c2, c3]) =
        (17 * hexDigitVal c1, 17 * hexDigitVal c2, 17 * hexDigitVal c3)) ∧
    (∀ l : List Char, l.length = 8 → (∀ c ∈ l, isHexDigit c = true) →
      parseColor (String.mk ('#' :: l)) =
        parseColor (String.mk ('#' :: l.take 6))) ∧
    (∀ s : String, s ≠ "" →
      (pyIntHex (pySlice (normalizeHex s) 0 2) = Option.none ∨
        pyIntHex (pySlice (normalizeHex s) 2 4) = Option.none ∨
        pyIntHex (pySlice (normalizeHex s) 4 6) = Option.none) →
      parseColor s = (255, 255, 255)) ∧
    (parseColor "" = (255, 255, 255)) := by
  have hmk_ne : ∀ (c : Char) (l : List Char), String.mk (c :: l) ≠ "" := by
    intro c l h
    have : (String.mk (c :: l)).data = ("" : String).data := by rw [h]
    simp at this
  refine ⟨?_, ?_, ?_, ?_, ?_⟩
  · intro s
    exact ⟨(parseColor s).1, (parseColor s).2.1, (parseColor s).2.2, rfl⟩
  · intro c1 c2 c3 h1 h2 h3
    have hnorm : normalizeHex (String.mk ['#', c1, c2, c3]) =
        [c1, c1, c2, c2, c3, c3] := by
      rw [normalizeHex]
      have : (String.mk ['#', c1, c2, c3]).toList.dropWhile
          (fun c => c = '#') = [c1, c2, c3] := by
        show (['#', c1, c2, c3].dropWhile (fun c => c = '#')) = _
        rw [List.dropWhile_cons, List.dropWhile_cons]
        simp [isHexDigit_ne h1 (by decide : ('#' : Char).toNat < 48)]
      rw [this]
      simp [List.bind]
    rw [parseColor, if_neg (hmk_ne _ _), hnorm]
    have e1 : pySlice [c1, c1, c2, c2, c3, c3] 0 2 = [c1, c1] := rfl
    have e2 : pySlice [c1, c1, c2, c2, c3, c3] 2 4 = [c2, c2] := rfl
    have e3 : pySlice [c1, c1, c2, c2, c3, c3] 4 6 = [c3, c3] := rfl
    rw [e1, e2, e3]
    rw [pyIntHex_all_digits [c1, c1] (by simp) (by simp [h1]),
      pyIntHex_all_digits [c2, c2] (by simp) (by simp [h2]),
      pyIntHex_all_digits [c3, c3] (by simp) (by simp [h3])]
    rw [hexVal_pair, hexVal_pair, hexVal_pair]
  · intro l hlen hall
    match l, hlen with
    | a :: rest, hlen =>
      have ha := hall a (List.mem_cons_self a rest)
      have hhash : (a = '#') = False := by
        simp [isHexDigit_ne ha (by decide : ('#' : Char).toNat < 48)]
      have hnorm1 : normalizeHex (String.mk ('#' :: a :: rest)) =
          (a :: rest).take 6 := by
        rw [normalizeHex]
        have : (String.mk ('#' :: a :: rest)).toList.dropWhile
            (fun c => c = '#') = a :: rest := by
          show (('#' :: a :: rest).dropWhile (fun c => c = '#')) = _
          rw [List.dropWhile_cons, List.dropWhile_cons]
          simp [hhash]
        rw [this]
        rw [if_neg (by rw [hlen]; decide), if_pos hlen]
      have hnorm2 : normalizeHex (String.mk ('#' :: (a :: rest).take 6)) =
          (a :: rest).take 6 := by
        rw [normalizeHex]
        have htake : (a :: rest).take 6 = a :: rest.take 5 := by
          simp [List.take_cons]
        have : (String.mk ('#' :: (a :: rest).take 6)).toList.dropWhile
            (fun c => c = '#') = (a :: rest).take 6 := by
          show (('#' :: (a :: rest).take 6).dropWhile (fun c => c = '#')) = _
          rw [List.dropWhile_cons, htake, List.dropWhile_cons]
          simp [hhash]
        rw [this]
        simp at hlen
        have hlen6 : ((a :: rest).take 6).length = 6 := by
          simp
          omega
        rw [hlen6]
        simp
      rw [parseColor, parseColor, if_neg (hmk_ne _ _), if_neg (hmk_ne _ _),
        hnorm1, hnorm2]
  · intro s hs hfail
    rw [parseColor, if_neg hs]
    split
    · rcases hfail with h | h | h <;> simp_all
    · rfl
  · rfl

/-- Witness for C10 at concrete inputs: `"#abc"` expands to
`(170, 187, 204)` and the non-hex `"#xyz"` falls back to white. -/
theorem parse_color_spec_witness :
    parseColor (String.mk ['#', 'a', 'b', 'c']) =
      (17 * hexDigitVal 'a', 17 * hexDigitVal 'b', 17 * hexDigitVal 'c') ∧
    parseColor "#xyz" = (255, 255, 255) :=
  ⟨parse_color_spec.2.1 'a' 'b' 'c' (by decide) (by decide) (by decide),
    parse_color_spec.2.2.2.1 "#xyz" (by decide) (Or.inl (by decide))⟩

/-- An XML element as produced by `xml.etree.ElementTree`: tag, attributes
in insertion order, child elements in document order, optional text. -/
inductive XmlElem : Type where
  | mk (tag : String) (attrs : List (String × String))
      (children : List XmlElem) (text : Option String)

def XmlElem.tag : XmlElem → String
  | .mk t _ _ _ => t

def XmlElem.attrs : XmlElem → List (String × String)
  | .mk _ a _ _ => a

def XmlElem.children : XmlElem → List XmlElem
  | .mk _ _ ch _ => ch

/-- `str()` of a Python value, for the value shapes that occur in node
`font` maps (ints and strings; other shapes do not occur). -/
def pyToString : PyVal → String
  | PyVal.str s => s
  | PyVal.int n => toString n
  | PyVal.none => "None"
  | PyVal.dict _ => ""
  | PyVal.list _ => ""

/-- The `richcontent` note element produced by `_build_xml_node` for a
node with a (truthy) note: `richcontent[TYPE=NOTE] > html > body > p`. -/
def noteElem (s : String) : XmlElem :=
  XmlElem.mk "richcontent" [("TYPE", "NOTE")]
    [XmlElem.mk "html" []
      [XmlElem.mk "body" []
        [XmlElem.mk "p" [] [] (some s)] Option.none] Option.none]
    Option.none

/-- The `BOLD` attribute list of the `font` element: present exactly when
`node.font.get("weight") == "bold"`. -/
def boldAttr (font : List (String × PyVal)) : List (String × String) :=
  match font.lookup "weight" with
  | some (PyVal.str w) => if w = "bold" then [("BOLD", "true")] else []
  | _ => []

/-- The `ITALIC` attribute list of the `font` element: present exactly
when `node.font.get("style") == "italic"`. -/
def italicAttr (font : List (String × PyVal)) : List (String × String) :=
  match font.lookup "style" with
  | some (PyVal.str st) => if st = "italic" then [("ITALIC", "true")] else []
  | _ => []

/-- The `BACKGROUND_COLOR` attribute list: present exactly when the
background color is truthy and not white (`bg_color and bg_color.lower()
!= "#ffffff"`). -/
def bgAttr (colors : List (String × String)) : List (String × String) :=
  if (colors.lookup "background").getD "#ffffff" ≠ "" ∧
      ((colors.lookup "background").getD "#ffffff").toLower ≠ "#ffffff" then
    [("BACKGROUND_COLOR", (colors.lookup "background").getD "#ffffff")]
  else []

/-- The note `richcontent` element list: present exactly when the node's
note is truthy (`if node.note:`). -/
def noteElems (nt : Option String) : List XmlElem :=
  match nt with
  | some s => if s ≠ "" then [noteElem s] else []
  | Option.none => []

mutual

/-- `FreeMindGenerator._build_xml_node` from `freemind_generator.py`:
produce the `node` element for `node` — attributes `TEXT`, `COLOR`,
`BACKGROUND_COLOR` (only when truthy and not white), and `STYLE="bubble"`
for the root or `POSITION` for a non-root node — followed by its `edge`
element (with `WIDTH="2"` on the root), its `font` element (with
`BOLD`/`ITALIC` flags), the note `richcontent` when the note is truthy,
and the recursively built child `node` elements. -/
def buildXmlNode (node : MindMapNode) (isRoot : Bool) (position : String) :
    XmlElem :=
  match node with
  | .mk _ name nt colors font children =>
    XmlElem.mk "node"
      ([("TEXT", name), ("COLOR", (colors.lookup "name").getD "#000000")] ++
        bgAttr colors ++
        (if isRoot then [("STYLE", "bubble")] else [("POSITION", position)]))
      ([XmlElem.mk "edge"
          ([("COLOR", (colors.lookup "branch").getD "#1f77b4")] ++
            (if isRoot then [("WIDTH", "2")] else [])) [] Option.none,
        XmlElem.mk "font"
          ([("NAME", "Arial"),
              ("SIZE", pyToString ((font.lookup "size").getD
                (PyVal.int 14)))] ++
            boldAttr font ++ italicAttr font)
          [] Option.none] ++
        noteElems nt ++
        buildXmlChildren children 0 isRoot position)
      Option.none
termination_by sizeOf node
decreasing_by
  simp <;> omega

/-- The `for idx, child in enumerate(node.children)` loop of
`_build_xml_node`: under the root the position alternates by index parity
(`right` for even, `left` for odd); under any other node every child
inherits the parent's position. -/
def buildXmlChildren :
    List MindMapNode → Nat → Bool → String → List XmlElem
  | [], _, _, _ => []
  | c :: rest, idx, isRoot, position =>
    buildXmlNode c false
        (if isRoot then (if idx % 2 = 0 then "right" else "left")
          else position) ::
      buildXmlChildren rest (idx + 1) isRoot position
termination_by l => sizeOf l
decreasing_by
  all_goals simp <;> omega

end

theorem buildXmlNode_def (i name : String) (nt : Option String)
    (colors : List (String × String)) (font : List (String × PyVal))
    (children : List MindMapNode) (isRoot : Bool) (position : String) :
    buildXmlNode (.mk i name nt colors font children) isRoot position =
      XmlElem.mk "node"
        ([("TEXT", name),
            ("COLOR", (colors.lookup "name").getD "#000000")] ++
          bgAttr colors ++
          (if isRoot then [("STYLE", "bubble")]
            else [("POSITION", position)]))
        ([XmlElem.mk "edge"
            ([("COLOR", (colors.lookup "branch").getD "#1f77b4")] ++
              (if isRoot then [("WIDTH", "2")] else [])) [] Option.none,
          XmlElem.mk "font"
            ([("NAME", "Arial"),
                ("SIZE", pyToString ((font.lookup "size").getD
                  (PyVal.int 14)))] ++
              boldAttr font ++ italicAttr font)
            [] Option.none] ++
          noteElems nt ++
          buildXmlChildren children 0 isRoot position)
        Option.none := by
  rw [buildXmlNode.eq_def]

mutual

/-- All elements of an XML subtree, root included, in document order. -/
def XmlElem.allElems (e : XmlElem) : List XmlElem :=
  match e with
  | .mk tag attrs children text =>
    XmlElem.mk tag attrs children text :: allElemsList children

/-- All elements of a forest of XML subtrees. -/
def allElemsList : List XmlElem → List XmlElem
  | [] => []
  | e :: rest => e.allElems ++ allElemsList rest

end

theorem XmlElem.allElems_def (tag : String) (attrs : List (String × String))
    (children : List XmlElem) (text : Option String) :
    XmlElem.allElems (.mk tag attrs children text) =
      XmlElem.mk tag attrs children text :: allElemsList children := by
  rw [XmlElem.allElems.eq_def]

theorem allElemsList_append (l1 l2 : List XmlElem) :
    allElemsList (l1 ++ l2) = allElemsList l1 ++ allElemsList l2 := by
  induction l1 with
  | nil => rw [allElemsList]; simp
  | cons e rest ih => rw [List.cons_append, allElemsList, allElemsList, ih,
      List.append_assoc]

/-- The `node`-tagged elements among an element's direct children — for
the document root's `node` element, these are the XML images of the
tree root's direct children. -/
def childNodeElems (e : XmlElem) : List XmlElem :=
  e.children.filter (fun c => c.tag == "node")

theorem buildXmlNode_tag (t : MindMapNode) (isRoot : Bool) (pos : String) :
    (buildXmlNode t isRoot pos).tag = "node" := by
  cases t
  rw [buildXmlNode_def]
  rfl

theorem buildXmlChildren_filter (cs : List MindMapNode) :
    ∀ (idx : Nat) (isRoot : Bool) (pos : String),
      (buildXmlChildren cs idx isRoot pos).filter
        (fun c => c.tag == "node") = buildXmlChildren cs idx isRoot pos := by
  induction cs with
  | nil => intro idx isRoot pos; rw [buildXmlChildren]; rfl
  | cons c rest ih =>
    intro idx isRoot pos
    rw [buildXmlChildren, List.filter_cons]
    rw [show ((buildXmlNode c false (if isRoot then
        (if idx % 2 = 0 then "right" else "left") else pos)).tag == "node") =
        true by rw [buildXmlNode_tag]; rfl]
    simp [ih (idx + 1) isRoot pos]

theorem childNodeElems_buildXmlNode (t : MindMapNode) (isRoot : Bool)
    (pos : String) :
    childNodeElems (buildXmlNode t isRoot pos) =
      buildXmlChildren t.children 0 isRoot pos := by
  cases t with
  | mk i nm nt colors font children =>
    rw [buildXmlNode_def, childNodeElems]
    show List.filter _ (_ ++ _ ++ _) = _
    rw [List.filter_append, List.filter_append]
    rw [buildXmlChildren_filter children 0 isRoot pos]
    have h2 : List.filter (fun c => c.tag == "node") (noteElems nt) = [] := by
      cases nt with
      | none => rfl
      | some s =>
        rw [noteElems]
        by_cases hs : s ≠ ""
        · rw [if_pos hs]; rfl
        · rw [if_neg hs]; rfl
    rw [h2]
    rfl

theorem buildXmlChildren_length (cs : List MindMapNode) :
    ∀ (idx : Nat) (isRoot : Bool) (pos : String),
      (buildXmlChildren cs idx isRoot pos).length = cs.length := by
  induction cs with
  | nil => intro idx isRoot pos; rw [buildXmlChildren]; rfl
  | cons c rest ih =>
    intro idx isRoot pos
    rw [buildXmlChildren, List.length_cons, List.length_cons,
      ih (idx + 1) isRoot pos]

theorem buildXmlChildren_get (cs : List MindMapNode) :
    ∀ (idx : Nat) (pos0 : String) (i : Nat)
      (hi : i < (buildXmlChildren cs idx true pos0).length),
      ∃ c ∈ cs, (buildXmlChildren cs idx true pos0)[i] =
        buildXmlNode c false
          (if (idx + i) % 2 = 0 then "right" else "left") := by
  induction cs with
  | nil =>
    intro idx pos0 i hi
    rw [buildXmlChildren] at hi
    simp at hi
  | cons c rest ih =>
    intro idx pos0 i hi
    have hrw : buildXmlChildren (c :: rest) idx true pos0 =
        buildXmlNode c false (if idx % 2 = 0 then "right" else "left") ::
          buildXmlChildren rest (idx + 1) true pos0 := by
      rw [buildXmlChildren]
      simp
    rcases i with _ | j
    · refine ⟨c, List.mem_cons_self c rest, ?_⟩
      simp only [hrw, List.getElem_cons_zero, Nat.add_zero]
    · have hj : j < (buildXmlChildren rest (idx + 1) true pos0).length := by
        have := hi
        rw [hrw] at this
        simpa using this
      obtain ⟨d, hd, hde⟩ := ih (idx + 1) pos0 j hj
      refine ⟨d, List.mem_cons_of_mem c hd, ?_⟩
      simp only [hrw, List.getElem_cons_succ]
      rw [hde]
      have harith : idx + 1 + j = idx + (j + 1) := by omega
      rw [harith]

theorem lookup_position_attr (nm x : String)
    (colors : List (String × String)) (pos : String) :
    (([("TEXT", nm), ("COLOR", x)] ++ bgAttr colors ++
      [("POSITION", pos)]).lookup "POSITION") = some pos := by
  rw [bgAttr]
  split <;> simp [List.lookup]

theorem mem_allElemsList_children_false (cs : List MindMapNode)
    (ih : ∀ c ∈ cs, ∀ (pos : String), ∀ e ∈ (buildXmlNode c false pos).allElems,
      e.tag = "node" → e.attrs.lookup "POSITION" = some pos) :
    ∀ (idx : Nat) (pos : String) (e : XmlElem),
      e ∈ allElemsList (buildXmlChildren cs idx false pos) →
      e.tag = "node" → e.attrs.lookup "POSITION" = some pos := by
  induction cs with
  | nil =>
    intro idx pos e he
    rw [buildXmlChildren, allElemsList] at he
    simp at he
  | cons c rest ihr =>
    intro idx pos e he htag
    rw [buildXmlChildren] at he
    rw [show (if false = true then (if idx % 2 = 0 then "right" else "left")
      else pos) = pos by simp] at he
    rw [allElemsList] at he
    rcases List.mem_append.mp he with hl | hr
    · exact ih c (List.mem_cons_self c rest) pos e hl htag
    · exact ihr (fun x hx => ih x (List.mem_cons_of_mem c hx)) (idx + 1)
        pos e hr htag

theorem freemind_position_inherited :
    ∀ (t : MindMapNode) (pos : String),
      ∀ e ∈ (buildXmlNode t false pos).allElems, e.tag = "node" →
        e.attrs.lookup "POSITION" = some pos := by
  intro t
  induction t using MindMapNode.ind with
  | h i nm nt colors font children ih =>
    intro pos e he htag
    rw [buildXmlNode_def] at he
    rw [show (if (false : Bool) then [("STYLE", "bubble")]
      else [("POSITION", pos)]) = [("POSITION", pos)] by simp] at he
    rw [XmlElem.allElems_def] at he
    rcases List.mem_cons.mp he with he0 | heCH
    · subst he0
      exact lookup_position_attr nm _ colors pos
    · rw [allElemsList_append, allElemsList_append] at heCH
      rcases List.mem_append.mp heCH with hfix | hch
      · rcases List.mem_append.mp hfix with hef | hnote
        · simp only [allElemsList, XmlElem.allElems_def] at hef
          simp at hef
          rcases hef with h1 | h1 <;> subst h1 <;> simp [XmlElem.tag] at htag
        · cases nt with
          | none => simp [noteElems, allElemsList] at hnote
          | some s =>
            rw [noteElems] at hnote
            by_cases hs : s ≠ ""
            · rw [if_pos hs] at hnote
              simp only [noteElem, allElemsList, XmlElem.allElems_def]
                at hnote
              simp at hnote
              rcases hnote with h1 | h1 | h1 | h1 <;> subst h1 <;>
                simp [XmlElem.tag] at htag
            · rw [if_neg hs] at hnote
              simp [allElemsList] at hnote
      · exact mem_allElemsList_children_false children ih 0 pos e hch htag

/-- C4: in the FreeMind XML output (built, as in
`FreeMindGenerator.generate`, with `is_root=True`), the root's direct child
`node` element at index `i` carries `POSITION="right"` for even `i` and
`POSITION="left"` for odd `i`, and every `node` element in that child's
entire subtree carries the same `POSITION` value, regardless of its own
index among its siblings. -/
theorem freemind_position_rule (root : MindMapNode) :
    ((childNodeElems (buildXmlNode root true "right")).length =
      root.children.length) ∧
    (∀ (i : Nat)
      (hi : i < (childNodeElems (buildXmlNode root true "right")).length),
      ∀ e ∈ ((childNodeElems (buildXmlNode root true "right"))[i]).allElems,
        e.tag = "node" →
        e.attrs.lookup "POSITION" =
          some (if i % 2 = 0 then "right" else "left")) := by
  constructor
  · rw [childNodeElems_buildXmlNode]
    exact buildXmlChildren_length root.children 0 true "right"
  · intro i hi e he htag
    rw [childNodeElems_buildXmlNode] at hi
    have he2 : e ∈ ((buildXmlChildren root.children 0 true "right")[i]
        ).allElems := by
      revert he
      simp only [childNodeElems_buildXmlNode]
      exact id
    obtain ⟨c, hc, hce⟩ := buildXmlChildren_get root.children 0 "right" i hi
    rw [hce] at he2
    rw [show (0 + i) % 2 = i % 2 by omega] at he2
    exact freemind_position_inherited c
      (if i % 2 = 0 then "right" else "left") e he2 htag

/-- The two-node tree used as concrete witness input: root `"Topic"` with
the single leaf child `"A"`. -/
def exampleTopicTree : MindMapNode :=
  MindMapNode.mk "" "Topic" Option.none defaultColors defaultFont
    [MindMapNode.mk "" "A" Option.none defaultColors defaultFont []]

/-- Witness for C4: in the XML for `exampleTopicTree`, the child element
at index 0 (the element of `"A"`) carries `POSITION="right"`. -/
theorem freemind_position_rule_witness :
    (XmlElem.mk "node"
        [("TEXT", "A"), ("COLOR", "#000000"), ("POSITION", "right")]
        [XmlElem.mk "edge" [("COLOR", "#1f77b4")] [] Option.none,
          XmlElem.mk "font" [("NAME", "Arial"), ("SIZE", "14")] []
            Option.none]
        Option.none).attrs.lookup "POSITION" =
      some (if 0 % 2 = 0 then "right" else "left") := by
  have hlen : 0 < (childNodeElems
      (buildXmlNode exampleTopicTree true "right")).length := by
    rw [(freemind_position_rule exampleTopicTree).1]
    rw [exampleTopicTree]
    simp [MindMapNode.children]
  have hselect : (childNodeElems
      (buildXmlNode exampleTopicTree true "right"))[0] =
      XmlElem.mk "node"
        [("TEXT", "A"), ("COLOR", "#000000"), ("POSITION", "right")]
        [XmlElem.mk "edge" [("COLOR", "#1f77b4")] [] Option.none,
          XmlElem.mk "font" [("NAME", "Arial"), ("SIZE", "14")] []
            Option.none]
        Option.none := by
    simp only [childNodeElems_buildXmlNode, exampleTopicTree,
      MindMapNode.children, buildXmlChildren]
    simp only [List.getElem_cons_zero]
    rw [buildXmlNode_def]
    rw [buildXmlChildren]
    simp [bgAttr, boldAttr, italicAttr, noteElems, defaultColors,
      defaultFont, List.lookup, pyToString]
    exact ⟨by rw [String.toLower, String.map_eq]; decide, by decide⟩
  exact (freemind_position_rule exampleTopicTree).2 0 hlen _ (by
      rw [hselect, XmlElem.allElems_def]
      exact List.mem_cons_self _ _) rfl

/-! Radial layout engine and canvas sizing (`image_generator.py`).
Python float arithmetic is modelled as exact real arithmetic; `math.cos`,
`math.sin` and `math.pi` become `Real.cos`, `Real.sin` and `Real.pi`. -/

/-- `ImageMindMapGenerator.MIN_WIDTH`. -/
def MIN_WIDTH : Int := 1200

/-- `ImageMindMapGenerator.MIN_HEIGHT`. -/
def MIN_HEIGHT : Int := 800

/-- `ImageMindMapGenerator.PADDING`. -/
noncomputable def PADDING : ℝ := 100

/-- `ImageMindMapGenerator.LEVEL_SPACING`. -/
noncomputable def LEVEL_SPACING : ℝ := 180

/-- `angle_step = angle_range / max(n, 1)` from `_layout_children`. -/
noncomputable def angleStep (startAngle endAngle : ℝ) (n : Nat) : ℝ :=
  (endAngle - startAngle) / ((max n 1 : Nat) : ℝ)

/-- `angle = start_angle + angle_step * (i + 0.5)` from
`_layout_children`. -/
noncomputable def childAngle (startAngle endAngle : ℝ) (n i : Nat) : ℝ :=
  startAngle + angleStep startAngle endAngle n * ((i : ℝ) + 1 / 2)

mutual

/-- `ImageMindMapGenerator._layout_children` from `image_generator.py`:
an empty child list contributes nothing; otherwise the loop runs over the
children with `angle_step = (end - start) / max(n, 1)` and
`radius = LEVEL_SPACING * level`.  The returned list contains the computed
`(x, y)` positions in the order the Python code inserts them into the
`positions` dict. -/
noncomputable def layoutChildren (children : List MindMapNode)
    (parentX parentY startAngle endAngle : ℝ) (level : Nat) :
    List (ℝ × ℝ) :=
  match children with
  | [] => []
  | c :: rest =>
    layoutLoop (c :: rest) 0 parentX parentY startAngle
      (angleStep startAngle endAngle (c :: rest).length)
      (LEVEL_SPACING * (level : ℝ)) level
termination_by (sizeOf children, 1)
decreasing_by
  apply Prod.Lex.right
  omega

/-- The `for i, child in enumerate(children)` loop of `_layout_children`:
each child is placed at `(parent + radius·cos(angle),
parent + radius·sin(angle))`; a child that itself has children recurses
over the sector of width `min(angle_step * 0.8, π/2)` centered on the
child's own angle, one level deeper. -/
noncomputable def layoutLoop : List MindMapNode → Nat → ℝ → ℝ → ℝ → ℝ →
    ℝ → Nat → List (ℝ × ℝ)
  | [], _, _, _, _, _, _, _ => []
  | c :: rest, i, px, py, sa, step, radius, level =>
    ((px + radius * Real.cos (sa + step * ((i : ℝ) + 1 / 2)),
      py + radius * Real.sin (sa + step * ((i : ℝ) + 1 / 2))) ::
      (if c.children.isEmpty then []
        else layoutChildren c.children
          (px + radius * Real.cos (sa + step * ((i : ℝ) + 1 / 2)))
          (py + radius * Real.sin (sa + step * ((i : ℝ) + 1 / 2)))
          ((sa + step * ((i : ℝ) + 1 / 2)) -
            min (step * 0.8) (Real.pi / 2) / 2)
          ((sa + step * ((i : ℝ) + 1 / 2)) +
            min (step * 0.8) (Real.pi / 2) / 2)
          (level + 1))) ++
      layoutLoop rest (i + 1) px py sa step radius level
termination_by l => (sizeOf l, 0)
decreasing_by
  · apply Prod.Lex.left
    cases c
    simp [MindMapNode.children] <;> omega
  · apply Prod.Lex.left
    simp <;> omega

end

/-- `ImageMindMapGenerator._calculate_layout`: the root sits at the fixed
center `(MIN_WIDTH // 2, MIN_HEIGHT // 2) = (600, 400)`; its children are
laid out over the full circle `[0, 2π)` at level 1. -/
noncomputable def calculateLayout (root : MindMapNode) : List (ℝ × ℝ) :=
  ((600 : ℝ), (400 : ℝ)) ::
    (if root.children.isEmpty then []
      else layoutChildren root.children 600 400 0 (2 * Real.pi) 1)

/-- Python `int()` applied to a float: truncation toward zero. -/
noncomputable def pyInt (x : ℝ) : Int := if 0 ≤ x then ⌊x⌋ else ⌈x⌉

/-- `ImageMindMapGenerator._calculate_size`: the bounding box of all
positions plus `PADDING * 2` in each dimension, truncated to `int` and
floored at `MIN_WIDTH × MIN_HEIGHT`.  (The node positions themselves are
not translated into canvas coordinates anywhere in the renderer.) -/
noncomputable def calculateSize (positions : List (ℝ × ℝ)) : Int × Int :=
  match positions with
  | [] => (MIN_WIDTH, MIN_HEIGHT)
  | p :: rest =>
    (max (pyInt (((rest.map Prod.fst).foldl max p.1 -
        (rest.map Prod.fst).foldl min p.1) + PADDING * 2)) MIN_WIDTH,
      max (pyInt (((rest.map Prod.snd).foldl max p.2 -
        (rest.map Prod.snd).foldl min p.2) + PADDING * 2)) MIN_HEIGHT)

/-- C5: the angle assigned by the layout engine to the `i`-th of `n ≥ 1`
children of a node with sector `[start, end)` is
`start + (i + 0.5) * (end - start) / n`; when the sector is non-degenerate
the sibling angles are strictly increasing and lie strictly inside the
parent's sector; and for `n = 1` the single child's angle is the sector
midpoint. -/
theorem radial_sibling_angles (sa ea : ℝ) (n : Nat) (hn : 1 ≤ n) :
    (∀ i : Nat, childAngle sa ea n i =
      sa + ((i : ℝ) + 1 / 2) * (ea - sa) / n) ∧
    (sa < ea → ∀ i j : Nat, i < j → j < n →
      childAngle sa ea n i < childAngle sa ea n j) ∧
    (sa < ea → ∀ i : Nat, i < n →
      sa < childAngle sa ea n i ∧ childAngle sa ea n i < ea) ∧
    (n = 1 → childAngle sa ea n 0 = (sa + ea) / 2) := by
  have hmax : max n 1 = n := Nat.max_eq_left hn
  have hn0 : (n : ℝ) ≠ 0 := Nat.cast_ne_zero.mpr (by omega)
  have hnpos : (0 : ℝ) < n := by
    have : (0 : ℕ) < n := by omega
    exact_mod_cast this
  refine ⟨?_, ?_, ?_, ?_⟩
  · intro i
    rw [childAngle, angleStep, hmax]
    field_simp
    ring
  · intro hlt i j hij hjn
    rw [childAngle, childAngle, angleStep, hmax]
    have hstep : 0 < (ea - sa) / (n : ℝ) :=
      div_pos (by linarith) hnpos
    have hcast : ((i : ℝ) + 1 / 2) < ((j : ℝ) + 1 / 2) := by
      have : (i : ℝ) < (j : ℝ) := by exact_mod_cast hij
      linarith
    have := mul_lt_mul_of_pos_left hcast hstep
    linarith
  · intro hlt i hin
    rw [childAngle, angleStep, hmax]
    have hstep : 0 < (ea - sa) / (n : ℝ) :=
      div_pos (by linarith) hnpos
    constructor
    · have h1 : (0 : ℝ) < (i : ℝ) + 1 / 2 := by positivity
      have := mul_pos hstep h1
      linarith
    · have hi : (i : ℝ) + 1 / 2 < (n : ℝ) := by
        have : (i : ℝ) + 1 ≤ (n : ℝ) := by exact_mod_cast hin
        linarith
      have h2 := mul_lt_mul_of_pos_left hi hstep
      rw [div_mul_cancel₀ _ hn0] at h2
      linarith
  · intro h1
    subst h1
    rw [childAngle, angleStep]
    norm_num
    ring

/-- Witness for C5 with the concrete sector `[0, 1)` and two children:
the first child's angle matches the formula, the two angles are strictly
increasing, the first angle lies inside the sector, and with a single
child the angle is the midpoint `1/2`. -/
theorem radial_sibling_angles_witness :
    (childAngle 0 1 2 0 =
      0 + (((0 : Nat) : ℝ) + 1 / 2) * (1 - 0) / ((2 : Nat) : ℝ)) ∧
    (childAngle 0 1 2 0 < childAngle 0 1 2 1) ∧
    (0 < childAngle 0 1 2 0 ∧ childAngle 0 1 2 0 < 1) ∧
    (childAngle 0 1 1 0 = (0 + 1) / 2) :=
  ⟨(radial_sibling_angles 0 1 2 (by norm_num)).1 0,
    (radial_sibling_angles 0 1 2 (by norm_num)).2.1 (by norm_num) 0 1
      (by norm_num) (by norm_num),
    (radial_sibling_angles 0 1 2 (by norm_num)).2.2.1 (by norm_num) 0
      (by norm_num),
    (radial_sibling_angles 0 1 1 (by norm_num)).2.2.2 rfl⟩

theorem layoutLoop_eq (cs : List MindMapNode) :
    ∀ (i0 : Nat) (px py sa step radius : ℝ) (level : Nat),
      layoutLoop cs i0 px py sa step radius level =
        ((cs.enumFrom i0).map (fun ic =>
          (px + radius * Real.cos (sa + step * ((ic.1 : ℝ) + 1 / 2)),
            py + radius * Real.sin (sa + step * ((ic.1 : ℝ) + 1 / 2))) ::
          (if ic.2.children.isEmpty then []
            else layoutChildren ic.2.children
              (px + radius * Real.cos (sa + step * ((ic.1 : ℝ) + 1 / 2)))
              (py + radius * Real.sin (sa + step * ((ic.1 : ℝ) + 1 / 2)))
              ((sa + step * ((ic.1 : ℝ) + 1 / 2)) -
                min (step * 0.8) (Real.pi / 2) / 2)
              ((sa + step * ((ic.1 : ℝ) + 1 / 2)) +
                min (step * 0.8) (Real.pi / 2) / 2)
              (level + 1)))).join := by
  induction cs with
  | nil =>
    intro i0 px py sa step radius level
    rw [layoutLoop, List.enumFrom]
    rfl
  | cons c rest ih =>
    intro i0 px py sa step radius level
    rw [layoutLoop, List.enumFrom, List.map_cons]
    simp only [List.join, ih (i0 + 1) px py sa step radius level]
    rfl

/-- C6: unfolding law of the layout engine in the spec's terms — under a
node with sector `[sa, ea)` and `n` children at depth `level`, the `i`-th
child is placed at `(parent_x + r·cos(angle), parent_y + r·sin(angle))`
with `r = LEVEL_SPACING * level` and
`angle = sa + (i + 0.5)·(ea − sa)/n`, and (when it has children of its
own) recurses over the sector of width `min(angle_step·0.8, π/2)` centered
on its own angle, where `angle_step = (ea − sa)/n`, one level deeper. -/
theorem layout_children_spec (children : List MindMapNode)
    (px py sa ea : ℝ) (level : Nat) :
    layoutChildren children px py sa ea level =
      (children.enum.map (fun ic =>
        (px + LEVEL_SPACING * (level : ℝ) *
            Real.cos (sa + ((ic.1 : ℝ) + 1 / 2) * (ea - sa) /
              (children.length : ℝ)),
          py + LEVEL_SPACING * (level : ℝ) *
            Real.sin (sa + ((ic.1 : ℝ) + 1 / 2) * (ea - sa) /
              (children.length : ℝ))) ::
        (if ic.2.children.isEmpty then []
          else layoutChildren ic.2.children
            (px + LEVEL_SPACING * (level : ℝ) *
              Real.cos (sa + ((ic.1 : ℝ) + 1 / 2) * (ea - sa) /
                (children.length : ℝ)))
            (py + LEVEL_SPACING * (level : ℝ) *
              Real.sin (sa + ((ic.1 : ℝ) + 1 / 2) * (ea - sa) /
                (children.length : ℝ)))
            ((sa + ((ic.1 : ℝ) + 1 / 2) * (ea - sa) /
                (children.length : ℝ)) -
              min ((ea - sa) / (children.length : ℝ) * 0.8)
                (Real.pi / 2) / 2)
            ((sa + ((ic.1 : ℝ) + 1 / 2) * (ea - sa) /
                (children.length : ℝ)) +
              min ((ea - sa) / (children.length : ℝ) * 0.8)
                (Real.pi / 2) / 2)
            (level + 1)))).join := by
  match children with
  | [] => rw [layoutChildren]; rfl
  | c :: rest =>
    rw [layoutChildren, layoutLoop_eq]
    rw [show (c :: rest).enum = (c :: rest).enumFrom 0 from rfl]
    congr 1
    apply List.map_congr_left
    intro ic _
    have hstep : angleStep sa ea (c :: rest).length =
        (ea - sa) / ((c :: rest).length : ℝ) := by
      rw [angleStep, Nat.max_eq_left (by simp)]
    rw [hstep]
    rw [show sa + (ea - sa) / (((c :: rest).length : Nat) : ℝ) *
        ((ic.1 : ℝ) + 1 / 2) =
        sa + ((ic.1 : ℝ) + 1 / 2) * (ea - sa) /
          (((c :: rest).length : Nat) : ℝ) from by ring]

theorem layout_single (c : MindMapNode) (px py sa ea : ℝ) (lvl : Nat)
    (hmid : sa + ea = 2 * Real.pi) :
    ∃ sa2 ea2 : ℝ, sa2 + ea2 = 2 * Real.pi ∧
      layoutChildren [c] px py sa ea lvl =
        (px - LEVEL_SPACING * (lvl : ℝ), py) ::
          (if c.children.isEmpty then []
            else layoutChildren c.children
              (px - LEVEL_SPACING * (lvl : ℝ)) py sa2 ea2 (lvl + 1)) := by
  refine ⟨Real.pi - min (angleStep sa ea 1 * 0.8) (Real.pi / 2) / 2,
    Real.pi + min (angleStep sa ea 1 * 0.8) (Real.pi / 2) / 2, by ring, ?_⟩
  rw [layoutChildren, layoutLoop_eq]
  simp only [List.enumFrom, List.map, List.join, List.append_nil,
    List.length_cons, List.length_nil, Nat.cast_zero]
  rw [show sa + angleStep sa ea (0 + 1) * ((0 : ℝ) + 1 / 2) = Real.pi by
    rw [angleStep]
    norm_num
    linarith]
  rw [Real.cos_pi, Real.sin_pi]
  rw [show px + LEVEL_SPACING * (lvl : ℝ) * (-1) =
    px - LEVEL_SPACING * (lvl : ℝ) by ring]
  rw [show py + LEVEL_SPACING * (lvl : ℝ) * 0 = py by ring]
  rw [show angleStep sa ea (0 + 1) = angleStep sa ea 1 by norm_num]
  simp

/-- C7: concrete evaluation of the layout and sizing code on the depth-3
chain.  The four nodes sit at `x = 600, 420, 60, −480`; the canvas is
sized `1280 × 800` from the bounding box plus padding, but since node
positions are never translated into canvas coordinates, the node at
`x = −480` lies entirely off the canvas and the node at `x = 60` is closer
than `PADDING = 100` to the left canvas edge, contradicting the claim that
every position keeps a `PADDING` margin from every canvas edge. -/
theorem canvas_layout_padding_bug :
    calculateLayout (chainTree 3) =
      [((600 : ℝ), (400 : ℝ)), (420, 400), (60, 400), (-480, 400)] ∧
    calculateSize (calculateLayout (chainTree 3)) = (1280, 800) ∧
    ((-480 : ℝ) - 0 < PADDING ∧ (60 : ℝ) - 0 < PADDING) := by
  have hlayout : calculateLayout (chainTree 3) =
      [((600 : ℝ), (400 : ℝ)), (420, 400), (60, 400), (-480, 400)] := by
    obtain ⟨sa2, ea2, hmid2, heq2⟩ :=
      layout_single (chainTree 2) 600 400 0 (2 * Real.pi) 1 (by ring)
    obtain ⟨sa3, ea3, hmid3, heq3⟩ :=
      layout_single (chainTree 1) (600 - LEVEL_SPACING * ((1 : Nat) : ℝ))
        400 sa2 ea2 2 hmid2
    obtain ⟨sa4, ea4, hmid4, heq4⟩ :=
      layout_single (chainTree 0)
        (600 - LEVEL_SPACING * ((1 : Nat) : ℝ) -
          LEVEL_SPACING * ((2 : Nat) : ℝ)) 400 sa3 ea3 3 hmid3
    rw [calculateLayout]
    rw [show (chainTree 3).children = [chainTree 2] from rfl]
    rw [show ([chainTree 2] : List MindMapNode).isEmpty = false from rfl]
    rw [if_neg (by simp)]
    rw [heq2]
    rw [show (chainTree 2).children = [chainTree 1] from rfl]
    rw [show ([chainTree 1] : List MindMapNode).isEmpty = false from rfl]
    rw [if_neg (by simp)]
    rw [heq3]
    rw [show (chainTree 1).children = [chainTree 0] from rfl]
    rw [show ([chainTree 0] : List MindMapNode).isEmpty = false from rfl]
    rw [if_neg (by simp)]
    rw [heq4]
    rw [show (chainTree 0).children = ([] : List MindMapNode) from rfl]
    rw [show ([] : List MindMapNode).isEmpty = true from rfl]
    rw [if_pos rfl]
    norm_num [LEVEL_SPACING]
  have hsize : calculateSize
      [((600 : ℝ), (400 : ℝ)), (420, 400), (60, 400), (-480, 400)] =
      (1280, 800) := by
    rw [calculateSize]
    norm_num [List.foldl, max_def, min_def, pyInt, PADDING, MIN_WIDTH,
      MIN_HEIGHT]
  exact ⟨hlayout, by rw [hlayout]; exact hsize, by norm_num [PADDING]⟩

end MindmapBot
